import Mathlib

set_option maxHeartbeats 1000000

/-! Verification of the gradient-averaging core of a synchronous
distributed data-parallel training script (`main.py`).  Tensors are
modelled as shaped flat lists of rationals (exact arithmetic in place
of floating point); the collective gather/scatter round coordinated by
rank 0 is modelled as a function on the rank-indexed family of the
workers' gradient tensors. -/

/-- A tensor: a shape (list of dimension sizes) plus flat element data. -/
structure Tensor where
  shape : List Nat
  data : List ℚ
deriving DecidableEq

/-- Well-formedness: the flat data holds exactly as many elements as the
shape prescribes. -/
def Tensor.wf (t : Tensor) : Prop := t.data.length = t.shape.prod

instance (t : Tensor) : Decidable t.wf := by unfold Tensor.wf; infer_instance

/-- Elementwise addition, keeping the left operand's shape (the reduction
step of averaging a stack of same-shape tensors). -/
def addTensor (a b : Tensor) : Tensor :=
  { shape := a.shape, data := List.zipWith (fun x y => x + y) a.data b.data }

/-- Model of `torch.mean(torch.stack(inputs), dim=0)` from
`average_gradients`: elementwise arithmetic mean of a family of
same-shape tensors (sum the stack along dimension 0, divide by the
stack height). -/
def stackMean (ts : List Tensor) : Tensor :=
  match ts with
  | [] => { shape := [], data := [] }
  | t :: rest =>
    let s := rest.foldl addTensor t
    { shape := t.shape
      data := s.data.map (fun x => x / ((rest.length + 1 : Nat) : ℚ)) }

/-- Errors surfaced by a collective round. -/
inductive CollectiveError where
  | shapeMismatch
deriving DecidableEq

instance {ε α : Type} [DecidableEq ε] [DecidableEq α] : DecidableEq (Except ε α) := fun x y =>
  match x, y with
  | Except.ok a, Except.ok b =>
    if h : a = b then Decidable.isTrue (h ▸ rfl)
    else Decidable.isFalse (fun hc => h (Except.ok.inj hc))
  | Except.error a, Except.error b =>
    if h : a = b then Decidable.isTrue (h ▸ rfl)
    else Decidable.isFalse (fun hc => h (Except.error.inj hc))
  | Except.ok _, Except.error _ => Decidable.isFalse (fun hc => Except.noConfusion hc)
  | Except.error _, Except.ok _ => Decidable.isFalse (fun hc => Except.noConfusion hc)

/-- One averaging round for a single parameter, as performed by the body
of `average_gradients` across the whole worker group.  Input: the
rank-indexed family of the workers' local gradient tensors for this
parameter (index 0 = root, rank 0).  The root allocates one receive
buffer per rank shaped like its own gradient
(`torch.empty(p.grad.size())` for each rank); the transport's `gather`
rejects any contribution whose shape disagrees with the root's buffer
shape (surfaced here as `CollectiveError.shapeMismatch`).  On success
the root averages the gathered rank-indexed sequence
(`torch.mean(torch.stack(inputs), dim=0)`) and scatters one copy of
the average to every rank (`outputs = [avg_grad] * world_size`),
overwriting each worker's local gradient in place. -/
def averagingRound (grads : List Tensor) : Except CollectiveError (List Tensor) :=
  match grads with
  | [] => Except.ok []
  | g0 :: rest =>
    if (g0 :: rest).all (fun g => decide (g.shape = g0.shape)) then
      Except.ok (List.replicate (g0 :: rest).length (stackMean (g0 :: rest)))
    else
      Except.error CollectiveError.shapeMismatch

/-- Spec-side description of the round's output (design document §4.1,
§8): element i of the result is the sum over the rank-indexed
contributions of element i, divided by the number of workers.  Stated
independently of the code, to be compared against `averagingRound`. -/
def specElementwiseMean (grads : List Tensor) (numel : Nat) : List ℚ :=
  (List.range numel).map
    (fun i => ((grads.map (fun g => g.data.getD i 0)).sum) / ((grads.length : Nat) : ℚ))

/-- One parameter of the model on one worker: the current weight values
plus the gradient buffer (`p` and `p.grad`). -/
structure Param where
  weight : Tensor
  grad : Tensor
deriving DecidableEq

/-- The averaging round for one parameter lifted to the parameter level:
run the round on the rank-indexed gradients of one parameter column and
write each result back into the corresponding worker's gradient buffer
(the weights are untouched). -/
def paramRound (col : List Param) : Except CollectiveError (List Param) :=
  (averagingRound (col.map Param.grad)).map
    (fun gs => List.zipWith (fun p g => { p with grad := g }) col gs)

/-- Model of `average_gradients(model, rank)` over the whole worker
group.  The distributed state is the list of parameter columns, one per
parameter of the model in its (identical on every worker) iteration
order; each column is the rank-indexed list of that parameter's
replicas.  The `for p in model.parameters()` loop runs one blocking
averaging round per column, sequentially, aborting at the first
failure. -/
def average_gradients : List (List Param) → Except CollectiveError (List (List Param))
  | [] => Except.ok []
  | col :: cols =>
    match paramRound col with
    | Except.error e => Except.error e
    | Except.ok col1 =>
      match average_gradients cols with
      | Except.error e => Except.error e
      | Except.ok cols1 => Except.ok (col1 :: cols1)

/-- Gather-phase arrival model: the root holds one receive slot per rank
(the `inputs` list), and an arriving message `(r, t)` from rank `r` is
placed into slot `r`, whatever position it has in the arrival order
(this is how `dist.gather` fills its rank-indexed `gather_list`). -/
def gatherSlots (n : Nat) (arrivals : List (Nat × Tensor)) : List (Option Tensor) :=
  arrivals.foldl (fun slots rt => slots.set rt.1 (some rt.2)) (List.replicate n none)

/-- The root proceeds past the gather phase only once every slot is
filled. -/
def allSlotsFilled : List (Option Tensor) → Option (List Tensor)
  | [] => some []
  | none :: _ => none
  | some t :: rest => (allSlotsFilled rest).map (fun ts => t :: ts)

/-- A full round as seen from the arrival side: collect the gather-phase
messages into the rank-indexed buffer, then run the round on the
collected sequence. -/
def roundFromArrivals (n : Nat) (arrivals : List (Nat × Tensor)) :
    Option (Except CollectiveError (List Tensor)) :=
  (allSlotsFilled (gatherSlots n arrivals)).map averagingRound

/-- Observations consumed by one iteration of the training loop: the
scalar loss value of the step and the measured forward, backward and
total wall-clock durations (time is an external input to the loop). -/
structure BatchObs where
  loss : ℚ
  fwd : ℚ
  bwd : ℚ
  tot : ℚ
deriving DecidableEq

/-- The local mutable state of `train_model`: the iteration counter and
the loss/timing accumulators, all initialized afresh on every call. -/
structure TrainState where
  iterNumber : Nat
  epochLoss : ℚ
  forwardTime : ℚ
  backwardTime : ℚ
  totalTime : ℚ
deriving DecidableEq

/-- Initial local state of `train_model` (`iter_number = 1`, all
accumulators zero). -/
def initialTrainState : TrainState :=
  { iterNumber := 1, epochLoss := 0, forwardTime := 0
    backwardTime := 0, totalTime := 0 }

/-- Observable events of one training-loop iteration, in program order. -/
inductive Ev where
  | zeroGrad
  | forwardPass
  | backwardPass
  | avgRound (paramIdx : Nat)
  | optStep
  | reportLoss (iter : Nat) (value : ℚ)
  | reportForwardTime (iter : Nat) (value : ℚ)
  | reportBackwardTime (iter : Nat) (value : ℚ)
  | reportTotalTime (iter : Nat) (value : ℚ)
deriving DecidableEq

/-- Phase events (computation and communication), as opposed to printed
reports. -/
def isPhaseEv : Ev → Bool
  | Ev.zeroGrad => true
  | Ev.forwardPass => true
  | Ev.backwardPass => true
  | Ev.avgRound _ => true
  | Ev.optStep => true
  | _ => false

def isAvgRoundEv : Ev → Bool
  | Ev.avgRound _ => true
  | _ => false

def isLossReportEv : Ev → Bool
  | Ev.reportLoss _ _ => true
  | _ => false

def isTimingReportEv : Ev → Bool
  | Ev.reportForwardTime _ _ => true
  | Ev.reportBackwardTime _ _ => true
  | Ev.reportTotalTime _ _ => true
  | _ => false

/-- One iteration of the `train_model` loop over batches, transcribed
from the loop body in program order: `optimizer.zero_grad()`, forward
pass, loss and `loss.backward()`, `average_gradients` (one blocking
round per parameter, in parameter order), `optimizer.step()`,
accumulate timing and loss, and, when the iteration number is a
multiple of 20, report the accumulated loss divided by 20 and — only
when the iteration number is not 20 — the three phase-timing averages,
then reset the accumulators.  Returns the updated local state and the
iteration's event trace. -/
def trainIter (nParams : Nat) (s : TrainState) (b : BatchObs) :
    TrainState × List Ev :=
  let forwardTime := s.forwardTime + b.fwd
  let backwardTime := s.backwardTime + b.bwd
  let totalTime := s.totalTime + b.tot
  let epochLoss := s.epochLoss + b.loss
  let phase : List Ev :=
    [Ev.zeroGrad, Ev.forwardPass, Ev.backwardPass] ++
      (List.range nParams).map Ev.avgRound ++ [Ev.optStep]
  if s.iterNumber % 20 = 0 then
    let timing : List Ev :=
      if s.iterNumber = 20 then []
      else [Ev.reportForwardTime s.iterNumber (forwardTime / 20),
            Ev.reportBackwardTime s.iterNumber (backwardTime / 20),
            Ev.reportTotalTime s.iterNumber (totalTime / 20)]
    ({ iterNumber := s.iterNumber + 1, epochLoss := 0,
       forwardTime := 0, backwardTime := 0, totalTime := 0 },
     phase ++ [Ev.reportLoss s.iterNumber (epochLoss / 20)] ++ timing)
  else
    ({ iterNumber := s.iterNumber + 1, epochLoss := epochLoss,
       forwardTime := forwardTime, backwardTime := backwardTime,
       totalTime := totalTime },
     phase)

/-- The local state of the training loop just before processing batch
index i (0-based), when the loop was entered with state s. -/
def loopStateFrom (nParams : Nat) (s : TrainState) (bs : List BatchObs) : Nat → TrainState
  | 0 => s
  | i + 1 =>
    (trainIter nParams (loopStateFrom nParams s bs i) (bs.getD i ⟨0, 0, 0, 0⟩)).1

/-- The local state of `train_model` just before processing batch index
i (0-based), starting from the fresh state the function initializes. -/
def stateBefore (nParams : Nat) (bs : List BatchObs) (i : Nat) : TrainState :=
  loopStateFrom nParams initialTrainState bs i

/-- The event trace of batch index i (0-based) in a `train_model` run. -/
def stepEvents (nParams : Nat) (bs : List BatchObs) (i : Nat) : List Ev :=
  (trainIter nParams (stateBefore nParams bs i) (bs.getD i ⟨0, 0, 0, 0⟩)).2

/-- The training loop: the per-step event traces, threading the local
state through all batches. -/
def runIters (nParams : Nat) (s : TrainState) : List BatchObs → List (List Ev)
  | [] => []
  | b :: rest =>
    let r := trainIter nParams s b
    r.2 :: runIters nParams r.1 rest

/-- Model of `train_model`: run the loop from the freshly initialized
local state. -/
def train_model_trace (nParams : Nat) (bs : List BatchObs) : List (List Ev) :=
  runIters nParams initialTrainState bs

/-- The loss value accumulated in `epoch_loss` just before step i
(0-based): the losses of the steps from the last report boundary (the
last multiple of 20) up to, excluding, step i. -/
def windowSum (bs : List BatchObs) (i : Nat) : ℚ :=
  (((bs.take i).drop (20 * (i / 20))).map BatchObs.loss).sum

/-- Model of the per-worker batch-size computation in `run`,
`batch_size = int(batch_size / float(dist.get_world_size()))`: the
global batch size divided by the world size in exact rational
arithmetic, then truncated by `int(...)` (for nonnegative operands,
the floor). -/
def localBatchSize (batchSize worldSize : Nat) : Nat :=
  Nat.floor ((batchSize : ℚ) / (worldSize : ℚ))

/-- Observable setup actions of `run` before the training loop, in
program order: seed torch and numpy with the constant 0, compute the
local batch size, build the rank-aware training sampler, build the
training and test data loaders with the local batch size, construct
the model, construct the optimizer. -/
inductive SetupEv where
  | torchManualSeed (seed : Nat)
  | numpyRandomSeed (seed : Nat)
  | computeLocalBatch (batch : Nat)
  | buildTrainSampler (rank : Nat) (size : Nat)
  | buildTrainLoader (batch : Nat)
  | buildTestLoader (batch : Nat)
  | buildModel
  | buildOptimizer
deriving DecidableEq

/-- The setup trace of `run(rank, size, epochs, batch_size)`,
transcribed from the statement order of the function body. -/
def runSetupTrace (rank size batchSize : Nat) : List SetupEv :=
  [SetupEv.torchManualSeed 0,
   SetupEv.numpyRandomSeed 0,
   SetupEv.computeLocalBatch (localBatchSize batchSize size),
   SetupEv.buildTrainSampler rank size,
   SetupEv.buildTrainLoader (localBatchSize batchSize size),
   SetupEv.buildTestLoader (localBatchSize batchSize size),
   SetupEv.buildModel,
   SetupEv.buildOptimizer]

def isBuildModelEv : SetupEv → Bool
  | SetupEv.buildModel => true
  | _ => false

/-- The batch size the training data loader is constructed with (the
argument of the first loader-construction event of the setup trace). -/
def trainLoaderBatchSize (rank size batchSize : Nat) : Option Nat :=
  (runSetupTrace rank size batchSize).foldr
    (fun e acc =>
      match e with
      | SetupEv.buildTrainLoader k => some k
      | _ => acc) none

/-- The setup actions performed before the model is constructed. -/
def setupBeforeModelBuild (rank size batchSize : Nat) : List SetupEv :=
  (runSetupTrace rank size batchSize).takeWhile (fun e => !(isBuildModelEv e))

/-- The torch random seed in force when the model is constructed: the
last `torch.manual_seed` value set before `mdl.VGG11()` runs, if any. -/
def torchSeedAtModelBuild (rank size batchSize : Nat) : Option Nat :=
  (setupBeforeModelBuild rank size batchSize).foldl
    (fun acc e =>
      match e with
      | SetupEv.torchManualSeed k => some k
      | _ => acc) none

/-- The numpy random seed in force when the model is constructed. -/
def numpySeedAtModelBuild (rank size batchSize : Nat) : Option Nat :=
  (setupBeforeModelBuild rank size batchSize).foldl
    (fun acc e =>
      match e with
      | SetupEv.numpyRandomSeed k => some k
      | _ => acc) none

/-- The initial parameters of the freshly constructed model on one
worker, as a function of an arbitrary deterministic initializer `init`
reading the torch and numpy seed states in force at construction time
(the model architecture itself is an external collaborator). -/
def initialModelParams (init : Option Nat → Option Nat → List ℚ)
    (rank size batchSize : Nat) : List ℚ :=
  init (torchSeedAtModelBuild rank size batchSize)
    (numpySeedAtModelBuild rank size batchSize)

/-- The mutable state `run` carries from one epoch to the next: the
model's weight values, the optimizer's internal state (momentum
buffers), and the model's train/eval mode flag (`nn.Module.training`;
`model.eval()` inside `test_model` sets it to false). -/
structure ModelOpt where
  weights : List ℚ
  momentum : List ℚ
  training : Bool
deriving DecidableEq

/-- A freshly constructed model plus optimizer: `nn.Module` starts in
training mode. -/
def initialModelOpt (w mo : List ℚ) : ModelOpt :=
  { weights := w, momentum := mo, training := true }

/-- Effect of `test_model` on the carried state: `model.eval()` sets the
mode flag to eval; under `torch.no_grad()` nothing else carried across
epochs changes. -/
def test_model_effect (m : ModelOpt) : ModelOpt :=
  { m with training := false }

/-- Numeric effect of one epoch of `train_model` on the carried state:
the weight/momentum update `f` is the opaque composition of the
forward, backward and optimizer computations over the epoch's batches;
it may read the mode flag (a forward pass can behave differently in
train and eval mode, e.g. with batch normalization or dropout), and it
never writes the flag (`train_model` calls neither `model.train()` nor
`model.eval()`). -/
def train_model_effect (f : List ℚ × List ℚ → Bool → List ℚ × List ℚ)
    (m : ModelOpt) : ModelOpt :=
  { weights := (f (m.weights, m.momentum) m.training).1
    momentum := (f (m.weights, m.momentum) m.training).2
    training := m.training }

/-- One iteration of the epoch loop in `run`: `train_model`, then
`test_model`. -/
def run_epoch (f : List ℚ × List ℚ → Bool → List ℚ × List ℚ)
    (m : ModelOpt) : ModelOpt :=
  test_model_effect (train_model_effect f m)

/-- The epoch loop of `run` over the per-epoch batch observations,
carrying the `ModelOpt` state and recording each epoch's `train_model`
event trace (the function's loss and timing accumulators are locals,
initialized afresh on every call). -/
def run_epochs (nParams : Nat) (f : List ℚ × List ℚ → Bool → List ℚ × List ℚ) :
    List (List BatchObs) → ModelOpt → ModelOpt × List (List (List Ev))
  | [], m => (m, [])
  | bs :: rest, m =>
    let tr := train_model_trace nParams bs
    let r := run_epochs nParams f rest (run_epoch f m)
    (r.1, tr :: r.2)

/-- A weight update that reads the train/eval mode flag: an admissible
instance of the opaque per-epoch training computation (any architecture
with batch normalization or dropout behaves differently across the two
modes). -/
def modeSensitiveUpdate : List ℚ × List ℚ → Bool → List ℚ × List ℚ :=
  fun wm t => if t then (wm.1.map (fun x => x + 1), wm.2) else wm

theorem foldl_addTensor_shape (ts : List Tensor) (init : Tensor) :
    (ts.foldl addTensor init).shape = init.shape := by
  induction ts generalizing init with
  | nil => rfl
  | cons t ts ih => rw [List.foldl_cons, ih]; rfl

theorem addTensor_data_length (init t : Tensor)
    (h : t.data.length = init.data.length) :
    (addTensor init t).data.length = init.data.length := by
  simp [addTensor, h]

theorem foldl_addTensor_data_length (ts : List Tensor) (init : Tensor)
    (h : ∀ t ∈ ts, t.data.length = init.data.length) :
    (ts.foldl addTensor init).data.length = init.data.length := by
  induction ts generalizing init with
  | nil => rfl
  | cons t ts ih =>
    have h1 : (addTensor init t).data.length = init.data.length :=
      addTensor_data_length init t (h t (List.mem_cons_self t ts))
    have h2 := ih (addTensor init t)
      (fun u hu => by rw [h1]; exact h u (List.mem_cons_of_mem _ hu))
    rw [List.foldl_cons, h2, h1]

theorem foldl_addTensor_getD (ts : List Tensor) (init : Tensor)
    (h : ∀ t ∈ ts, t.data.length = init.data.length)
    (i : Nat) (hi : i < init.data.length) :
    (ts.foldl addTensor init).data.getD i 0 =
      init.data.getD i 0 + (ts.map (fun t => t.data.getD i 0)).sum := by
  induction ts generalizing init with
  | nil => simp
  | cons t ts ih =>
    have hlt : t.data.length = init.data.length := h t (List.mem_cons_self t ts)
    have h1 : (addTensor init t).data.length = init.data.length :=
      addTensor_data_length init t hlt
    have hi' : i < (addTensor init t).data.length := by rw [h1]; exact hi
    have hti : i < t.data.length := by rw [hlt]; exact hi
    have h2 := ih (addTensor init t)
      (fun u hu => by rw [h1]; exact h u (List.mem_cons_of_mem _ hu)) hi'
    rw [List.foldl_cons, h2]
    have h3 : (addTensor init t).data.getD i 0 =
        init.data.getD i 0 + t.data.getD i 0 := by
      simp [addTensor, List.getD_eq_getElem?_getD, List.getElem?_zipWith,
        List.getElem?_eq_getElem hi, List.getElem?_eq_getElem hti]
    rw [h3, List.map_cons, List.sum_cons, add_assoc]

theorem stackMean_spec (g0 : Tensor) (rest : List Tensor) (s : List Nat)
    (hsh : ∀ g ∈ g0 :: rest, g.shape = s)
    (hwf : ∀ g ∈ g0 :: rest, g.wf) :
    stackMean (g0 :: rest) = ⟨s, specElementwiseMean (g0 :: rest) s.prod⟩ := by
  have hg0s : g0.shape = s := hsh g0 (List.mem_cons_self g0 rest)
  have hg0L : g0.data.length = s.prod := by
    have := hwf g0 (List.mem_cons_self g0 rest)
    rw [Tensor.wf, hg0s] at this
    exact this
  have hlens : ∀ t ∈ rest, t.data.length = g0.data.length := by
    intro t ht
    have hw := hwf t (List.mem_cons_of_mem _ ht)
    rw [Tensor.wf, hsh t (List.mem_cons_of_mem _ ht)] at hw
    rw [hw, hg0L]
  have hfoldL : (rest.foldl addTensor g0).data.length = s.prod := by
    rw [foldl_addTensor_data_length rest g0 hlens, hg0L]
  simp only [stackMean, Tensor.mk.injEq]
  refine ⟨hg0s, ?_⟩
  apply List.ext_getElem
  · simp [specElementwiseMean, hfoldL]
  · intro i h1 h2
    have hiL : i < s.prod := by
      simpa [specElementwiseMean] using h2
    have hifold : i < (rest.foldl addTensor g0).data.length := by
      rw [hfoldL]; exact hiL
    have hig0 : i < g0.data.length := by rw [hg0L]; exact hiL
    simp only [List.getElem_map, specElementwiseMean, List.getElem_range]
    rw [show (rest.foldl addTensor g0).data[i] =
        (rest.foldl addTensor g0).data.getD i 0 by
      simp [List.getD_eq_getElem?_getD, List.getElem?_eq_getElem hifold]]
    rw [foldl_addTensor_getD rest g0 hlens i hig0]
    simp [List.length_cons]

/-- Claim C1: one averaging round, applied to the rank-indexed family of
same-shape gradient tensors of all N workers (N at least 1), ends with
every worker, root and non-root alike, holding the elementwise
arithmetic mean (sum over ranks divided by N) of the N contributions in
place of its local gradient; in particular all post-round tensors are
identical across workers. -/
theorem averagingRound_elementwise_mean (grads : List Tensor) (s : List Nat)
    (hne : grads ≠ [])
    (hsh : ∀ g ∈ grads, g.shape = s)
    (hwf : ∀ g ∈ grads, g.wf) :
    averagingRound grads =
      Except.ok (List.replicate grads.length
        ⟨s, specElementwiseMean grads s.prod⟩) ∧
    ∀ out, averagingRound grads = Except.ok out →
      ∀ a ∈ out, ∀ b ∈ out, a = b := by
  match grads with
  | [] => exact absurd rfl hne
  | g0 :: rest =>
    have hcond : ((g0 :: rest).all (fun g => decide (g.shape = g0.shape))) = true := by
      rw [List.all_eq_true]
      intro g hg
      rw [decide_eq_true_eq, hsh g hg, hsh g0 (List.mem_cons_self g0 rest)]
    have hmain : averagingRound (g0 :: rest) =
        Except.ok (List.replicate (g0 :: rest).length
          ⟨s, specElementwiseMean (g0 :: rest) s.prod⟩) := by
      rw [averagingRound, if_pos hcond, stackMean_spec g0 rest s hsh hwf]
    refine ⟨hmain, ?_⟩
    intro out hout a ha b hb
    rw [hmain] at hout
    have hout' := Except.ok.inj hout
    rw [← hout'] at ha hb
    rw [List.eq_of_mem_replicate ha, List.eq_of_mem_replicate hb]

/-- Witness for C1 at the spec's concrete scenario: N = 2, rank 0
contributes [2, 4], rank 1 contributes [6, 8], and both ranks end the
round with [4, 6]. -/
theorem averagingRound_elementwise_mean_witness :
    averagingRound [⟨[2], [2, 4]⟩, ⟨[2], [6, 8]⟩] =
      Except.ok [⟨[2], [4, 6]⟩, ⟨[2], [4, 6]⟩] := by
  have h := averagingRound_elementwise_mean
    [⟨[2], [2, 4]⟩, ⟨[2], [6, 8]⟩] [2] (by decide) (by decide) (by decide)
  rw [h.1]
  norm_num [specElementwiseMean, List.range_succ, List.replicate]

/-- Claim C3: if any worker's contributed tensor shape disagrees with
the shape the root (rank 0) expects for the round, the round aborts
with the shape-mismatch error and never returns a successful (silently
truncated, padded or reduced) result. -/
theorem averagingRound_shape_mismatch (g0 : Tensor) (rest : List Tensor)
    (h : ∃ g ∈ rest, g.shape ≠ g0.shape) :
    averagingRound (g0 :: rest) = Except.error CollectiveError.shapeMismatch ∧
    ∀ out, averagingRound (g0 :: rest) ≠ Except.ok out := by
  obtain ⟨g, hg, hne⟩ := h
  have hcond : ((g0 :: rest).all (fun g => decide (g.shape = g0.shape))) ≠ true := by
    intro hall
    rw [List.all_eq_true] at hall
    exact hne (of_decide_eq_true (hall g (List.mem_cons_of_mem _ hg)))
  have hmain : averagingRound (g0 :: rest) =
      Except.error CollectiveError.shapeMismatch := by
    rw [averagingRound, if_neg hcond]
  exact ⟨hmain, fun out hout => by rw [hmain] at hout; exact Except.noConfusion hout⟩

/-- Witness for C3 at the spec's concrete scenario: rank 0 holds a
(4, 4) tensor and rank 1 a (4, 8) tensor; the round aborts with the
shape-mismatch error. -/
theorem averagingRound_shape_mismatch_witness :
    averagingRound [⟨[4, 4], List.replicate 16 1⟩, ⟨[4, 8], List.replicate 32 1⟩] =
      Except.error CollectiveError.shapeMismatch :=
  (averagingRound_shape_mismatch ⟨[4, 4], List.replicate 16 1⟩
    [⟨[4, 8], List.replicate 32 1⟩] (by decide)).1

theorem foldl_set_length (arr : List (Nat × Tensor)) (slots : List (Option Tensor)) :
    (arr.foldl (fun sl rt => sl.set rt.1 (some rt.2)) slots).length = slots.length := by
  induction arr generalizing slots with
  | nil => rfl
  | cons a arr ih => rw [List.foldl_cons, ih, List.length_set]

theorem foldl_set_getElem? (arr : List (Nat × Tensor)) (r : Nat) (v : Tensor) :
    ∀ slots : List (Option Tensor), r < slots.length →
      (∀ t, (r, t) ∈ arr → t = v) →
      ((r, v) ∈ arr ∨ slots[r]? = some (some v)) →
      (arr.foldl (fun sl rt => sl.set rt.1 (some rt.2)) slots)[r]? = some (some v) := by
  induction arr with
  | nil =>
    intro slots hr huniq hdisj
    cases hdisj with
    | inl h => exact absurd h (List.not_mem_nil _)
    | inr h => exact h
  | cons a arr ih =>
    intro slots hr huniq hdisj
    rw [List.foldl_cons]
    by_cases hcase : a.1 = r
    · have hv : a.2 = v := by
        apply huniq a.2
        have : a = (r, a.2) := by
          rw [← hcase]
        rw [← this]
        exact List.mem_cons_self a arr
      apply ih (slots.set a.1 (some a.2)) (by rw [List.length_set]; exact hr)
        (fun t ht => huniq t (List.mem_cons_of_mem _ ht))
      right
      rw [hcase, hv]
      exact List.getElem?_set_eq_of_lt (some v) hr
    · apply ih (slots.set a.1 (some a.2)) (by rw [List.length_set]; exact hr)
        (fun t ht => huniq t (List.mem_cons_of_mem _ ht))
      cases hdisj with
      | inl h =>
        rcases List.mem_cons.mp h with h1 | h2
        · exact absurd (congrArg Prod.fst h1).symm hcase
        · exact Or.inl h2
      | inr h =>
        right
        rw [List.getElem?_set_ne (fun heq => hcase heq)]
        exact h

theorem gatherSlots_perm (grads : List Tensor) (arrivals : List (Nat × Tensor))
    (hperm : arrivals.Perm grads.enum) :
    gatherSlots grads.length arrivals = grads.map some := by
  apply List.ext_getElem
  · rw [gatherSlots, foldl_set_length, List.length_replicate, List.length_map]
  · intro i h1 h2
    have hi : i < grads.length := by simpa using h2
    have hq : (gatherSlots grads.length arrivals)[i]? = some (some grads[i]) := by
      apply foldl_set_getElem?
      · rw [List.length_replicate]; exact hi
      · intro t ht
        have h3 : (i, t) ∈ grads.enum := hperm.subset ht
        have h4 := List.mk_mem_enum_iff_getElem?.mp h3
        rw [List.getElem?_eq_getElem hi] at h4
        exact (Option.some.inj h4).symm
      · left
        apply hperm.mem_iff.mpr
        apply List.mk_mem_enum_iff_getElem?.mpr
        rw [List.getElem?_eq_getElem hi]
    rw [List.getElem?_eq_getElem h1] at hq
    rw [Option.some.inj hq]
    simp

theorem allSlotsFilled_map_some (l : List Tensor) :
    allSlotsFilled (l.map some) = some l := by
  induction l with
  | nil => rfl
  | cons t l ih => simp [allSlotsFilled, ih]

/-- Claim C2: the result of one averaging round is a deterministic
function of the world size and the rank-indexed inputs alone: whatever
order the gather-phase messages arrive at the root in, the root ends
with the same rank-indexed input sequence, reduces it in rank order,
and the round's outcome equals the round on the rank-ordered inputs;
two executions with the same rank-indexed inputs agree. -/
theorem roundFromArrivals_deterministic (grads : List Tensor)
    (arr1 arr2 : List (Nat × Tensor))
    (h1 : arr1.Perm grads.enum) (h2 : arr2.Perm grads.enum) :
    roundFromArrivals grads.length arr1 = some (averagingRound grads) ∧
    roundFromArrivals grads.length arr1 = roundFromArrivals grads.length arr2 := by
  have e1 : roundFromArrivals grads.length arr1 = some (averagingRound grads) := by
    rw [roundFromArrivals, gatherSlots_perm grads arr1 h1, allSlotsFilled_map_some]
    rfl
  have e2 : roundFromArrivals grads.length arr2 = some (averagingRound grads) := by
    rw [roundFromArrivals, gatherSlots_perm grads arr2 h2, allSlotsFilled_map_some]
    rfl
  exact ⟨e1, e1.trans e2.symm⟩

/-- Witness for C2: with two workers, the non-root's message arriving
before the root records its own contribution still yields the round on
the rank-ordered inputs. -/
theorem roundFromArrivals_deterministic_witness :
    roundFromArrivals 2 [(1, ⟨[2], [6, 8]⟩), (0, ⟨[2], [2, 4]⟩)] =
      some (averagingRound [⟨[2], [2, 4]⟩, ⟨[2], [6, 8]⟩]) ∧
    roundFromArrivals 2 [(1, ⟨[2], [6, 8]⟩), (0, ⟨[2], [2, 4]⟩)] =
      roundFromArrivals 2 [(0, ⟨[2], [2, 4]⟩), (1, ⟨[2], [6, 8]⟩)] :=
  roundFromArrivals_deterministic [⟨[2], [2, 4]⟩, ⟨[2], [6, 8]⟩]
    [(1, ⟨[2], [6, 8]⟩), (0, ⟨[2], [2, 4]⟩)]
    [(0, ⟨[2], [2, 4]⟩), (1, ⟨[2], [6, 8]⟩)] (by decide) (by decide)

theorem averagingRound_ok_length (grads out : List Tensor)
    (h : averagingRound grads = Except.ok out) : out.length = grads.length := by
  match grads with
  | [] =>
    rw [averagingRound] at h
    rw [← Except.ok.inj h]
  | g0 :: rest =>
    rw [averagingRound] at h
    by_cases hc : ((g0 :: rest).all fun g => decide (g.shape = g0.shape)) = true
    · rw [if_pos hc] at h
      rw [← Except.ok.inj h, List.length_replicate]
    · rw [if_neg hc] at h
      exact Except.noConfusion h

theorem zipWith_gradUpdate_weights (col : List Param) (gs : List Tensor)
    (h : col.length ≤ gs.length) :
    (List.zipWith (fun p g => { p with grad := g }) col gs).map Param.weight =
      col.map Param.weight := by
  induction col generalizing gs with
  | nil => rfl
  | cons p col ih =>
    cases gs with
    | nil => simp at h
    | cons g gs =>
      rw [List.zipWith_cons_cons, List.map_cons, List.map_cons,
        ih gs (by simpa using h)]

theorem paramRound_weights (col col1 : List Param)
    (h : paramRound col = Except.ok col1) :
    col1.map Param.weight = col.map Param.weight := by
  rw [paramRound] at h
  cases hr : averagingRound (col.map Param.grad) with
  | ok gs =>
    rw [hr] at h
    simp only [Except.map] at h
    rw [← Except.ok.inj h]
    apply zipWith_gradUpdate_weights
    rw [averagingRound_ok_length _ _ hr, List.length_map]
  | error e =>
    rw [hr] at h
    simp [Except.map] at h

/-- Claim C10: an averaging round mutates only the gradient buffers: on
success, every worker's weight tensors for every parameter are exactly
what they were before the call (the optimizer step, outside this
function, is what later modifies weights). -/
theorem average_gradients_preserves_weights (cols cols1 : List (List Param))
    (h : average_gradients cols = Except.ok cols1) :
    cols1.map (fun col => col.map Param.weight) =
      cols.map (fun col => col.map Param.weight) := by
  induction cols generalizing cols1 with
  | nil =>
    rw [average_gradients] at h
    rw [← Except.ok.inj h]
  | cons col cols ih =>
    rw [average_gradients] at h
    cases h1 : paramRound col with
    | error e => rw [h1] at h; exact Except.noConfusion h
    | ok colr =>
      rw [h1] at h
      cases h2 : average_gradients cols with
      | error e => rw [h2] at h; exact Except.noConfusion h
      | ok colsr =>
        rw [h2] at h
        rw [← Except.ok.inj h, List.map_cons, List.map_cons,
          paramRound_weights col colr h1, ih colsr h2]

/-- Witness for C10: a two-worker, one-parameter state with zero
gradients; the round succeeds and every weight tensor is unchanged. -/
theorem average_gradients_preserves_weights_witness :
    average_gradients [[⟨⟨[1], [5]⟩, ⟨[1], [0]⟩⟩, ⟨⟨[1], [7]⟩, ⟨[1], [0]⟩⟩]] =
      Except.ok [[⟨⟨[1], [5]⟩, ⟨[1], [0]⟩⟩, ⟨⟨[1], [7]⟩, ⟨[1], [0]⟩⟩]] ∧
    ([[⟨⟨[1], [5]⟩, ⟨[1], [0]⟩⟩, ⟨⟨[1], [7]⟩, ⟨[1], [0]⟩⟩]].map
        (fun col => col.map Param.weight)) =
      ([[⟨⟨[1], [5]⟩, ⟨[1], [0]⟩⟩, ⟨⟨[1], [7]⟩, ⟨[1], [0]⟩⟩]].map
        (fun col => col.map Param.weight)) := by
  have hok : average_gradients [[⟨⟨[1], [5]⟩, ⟨[1], [0]⟩⟩, ⟨⟨[1], [7]⟩, ⟨[1], [0]⟩⟩]] =
      Except.ok [[⟨⟨[1], [5]⟩, ⟨[1], [0]⟩⟩, ⟨⟨[1], [7]⟩, ⟨[1], [0]⟩⟩]] := by
    simp [average_gradients, paramRound, averagingRound, stackMean, addTensor,
      Except.map, List.replicate]
  exact ⟨hok, by
    have h := average_gradients_preserves_weights _ _ hok
    exact h⟩

/-- Claim C7: sequential rounds for two distinct parameters in the same
step do not mix their buffers.  First, the round for the first
parameter consumes only the first column, and the second column enters
its own round unchanged (the root's gather buffer is freshly allocated
per parameter).  Second, the second parameter's final averaged result
depends only on its own column: replacing the first column by any other
leaves it unchanged. -/
theorem average_gradients_no_cross_mixing (c1 c2 c1' : List Param) :
    (∀ r1, paramRound c1 = Except.ok r1 →
      average_gradients [c1, c2] =
        Except.map (fun r2 => [r1, r2]) (paramRound c2)) ∧
    (∀ r1 r2 r1' r2', average_gradients [c1, c2] = Except.ok [r1, r2] →
      average_gradients [c1', c2] = Except.ok [r1', r2'] → r2 = r2') := by
  constructor
  · intro r1 h1
    rw [average_gradients, h1, average_gradients, average_gradients]
    cases h2 : paramRound c2 with
    | error e => rfl
    | ok r2 => rfl
  · intro r1 r2 r1' r2' ha hb
    rw [average_gradients, average_gradients, average_gradients] at ha hb
    cases h1 : paramRound c1 with
    | error e => rw [h1] at ha; exact Except.noConfusion ha
    | ok v1 =>
      rw [h1] at ha
      cases h2 : paramRound c2 with
      | error e => rw [h2] at ha; exact Except.noConfusion ha
      | ok v2 =>
        rw [h2] at ha
        cases h1' : paramRound c1' with
        | error e => rw [h1'] at hb; exact Except.noConfusion hb
        | ok v1' =>
          rw [h1', h2] at hb
          have ea := List.cons.inj (Except.ok.inj ha)
          have eb := List.cons.inj (Except.ok.inj hb)
          have ea2 := (List.cons.inj ea.2).1
          have eb2 := (List.cons.inj eb.2).1
          rw [← ea2, ← eb2]

/-- Witness for C7: two distinct parameter columns over two workers with
zero gradients, and an alternative first column with different weights;
the second parameter's result is the same in both runs. -/
theorem average_gradients_no_cross_mixing_witness :
    average_gradients
        [[⟨⟨[1], [5]⟩, ⟨[1], [0]⟩⟩, ⟨⟨[1], [5]⟩, ⟨[1], [0]⟩⟩],
         [⟨⟨[1], [7]⟩, ⟨[1], [0]⟩⟩, ⟨⟨[1], [9]⟩, ⟨[1], [0]⟩⟩]] =
      Except.ok
        [[⟨⟨[1], [5]⟩, ⟨[1], [0]⟩⟩, ⟨⟨[1], [5]⟩, ⟨[1], [0]⟩⟩],
         [⟨⟨[1], [7]⟩, ⟨[1], [0]⟩⟩, ⟨⟨[1], [9]⟩, ⟨[1], [0]⟩⟩]] ∧
    average_gradients
        [[⟨⟨[1], [3]⟩, ⟨[1], [0]⟩⟩, ⟨⟨[1], [3]⟩, ⟨[1], [0]⟩⟩],
         [⟨⟨[1], [7]⟩, ⟨[1], [0]⟩⟩, ⟨⟨[1], [9]⟩, ⟨[1], [0]⟩⟩]] =
      Except.ok
        [[⟨⟨[1], [3]⟩, ⟨[1], [0]⟩⟩, ⟨⟨[1], [3]⟩, ⟨[1], [0]⟩⟩],
         [⟨⟨[1], [7]⟩, ⟨[1], [0]⟩⟩, ⟨⟨[1], [9]⟩, ⟨[1], [0]⟩⟩]] ∧
    ([⟨⟨[1], [7]⟩, ⟨[1], [0]⟩⟩, ⟨⟨[1], [9]⟩, ⟨[1], [0]⟩⟩] :
        List Param) =
      [⟨⟨[1], [7]⟩, ⟨[1], [0]⟩⟩, ⟨⟨[1], [9]⟩, ⟨[1], [0]⟩⟩] := by
  have ha : average_gradients
      [[⟨⟨[1], [5]⟩, ⟨[1], [0]⟩⟩, ⟨⟨[1], [5]⟩, ⟨[1], [0]⟩⟩],
       [⟨⟨[1], [7]⟩, ⟨[1], [0]⟩⟩, ⟨⟨[1], [9]⟩, ⟨[1], [0]⟩⟩]] =
      Except.ok
        [[⟨⟨[1], [5]⟩, ⟨[1], [0]⟩⟩, ⟨⟨[1], [5]⟩, ⟨[1], [0]⟩⟩],
         [⟨⟨[1], [7]⟩, ⟨[1], [0]⟩⟩, ⟨⟨[1], [9]⟩, ⟨[1], [0]⟩⟩]] := by
    simp [average_gradients, paramRound, averagingRound, stackMean, addTensor,
      Except.map, List.replicate]
  have hb : average_gradients
      [[⟨⟨[1], [3]⟩, ⟨[1], [0]⟩⟩, ⟨⟨[1], [3]⟩, ⟨[1], [0]⟩⟩],
       [⟨⟨[1], [7]⟩, ⟨[1], [0]⟩⟩, ⟨⟨[1], [9]⟩, ⟨[1], [0]⟩⟩]] =
      Except.ok
        [[⟨⟨[1], [3]⟩, ⟨[1], [0]⟩⟩, ⟨⟨[1], [3]⟩, ⟨[1], [0]⟩⟩],
         [⟨⟨[1], [7]⟩, ⟨[1], [0]⟩⟩, ⟨⟨[1], [9]⟩, ⟨[1], [0]⟩⟩]] := by
    simp [average_gradients, paramRound, averagingRound, stackMean, addTensor,
      Except.map, List.replicate]
  exact ⟨ha, hb,
    (average_gradients_no_cross_mixing
      [⟨⟨[1], [5]⟩, ⟨[1], [0]⟩⟩, ⟨⟨[1], [5]⟩, ⟨[1], [0]⟩⟩]
      [⟨⟨[1], [7]⟩, ⟨[1], [0]⟩⟩, ⟨⟨[1], [9]⟩, ⟨[1], [0]⟩⟩]
      [⟨⟨[1], [3]⟩, ⟨[1], [0]⟩⟩, ⟨⟨[1], [3]⟩, ⟨[1], [0]⟩⟩]).2
      _ _ _ _ ha hb⟩

theorem trainIter_snd_eq (nParams : Nat) (s : TrainState) (b : BatchObs) :
    (trainIter nParams s b).2 =
      [Ev.zeroGrad, Ev.forwardPass, Ev.backwardPass] ++
        (List.range nParams).map Ev.avgRound ++ [Ev.optStep] ++
        (if s.iterNumber % 20 = 0 then
          Ev.reportLoss s.iterNumber ((s.epochLoss + b.loss) / 20) ::
            (if s.iterNumber = 20 then []
             else [Ev.reportForwardTime s.iterNumber ((s.forwardTime + b.fwd) / 20),
                   Ev.reportBackwardTime s.iterNumber ((s.backwardTime + b.bwd) / 20),
                   Ev.reportTotalTime s.iterNumber ((s.totalTime + b.tot) / 20)])
         else []) := by
  unfold trainIter
  by_cases h20 : s.iterNumber % 20 = 0
  · by_cases h20e : s.iterNumber = 20
    · simp only [if_pos h20, if_pos h20e]
      simp
    · simp only [if_pos h20, if_neg h20e]
      simp
  · simp only [if_neg h20]
    simp

theorem trainIter_reports_not_phase (nParams : Nat) (s : TrainState) (b : BatchObs) :
    ∀ e ∈ (if s.iterNumber % 20 = 0 then
        Ev.reportLoss s.iterNumber ((s.epochLoss + b.loss) / 20) ::
          (if s.iterNumber = 20 then []
           else [Ev.reportForwardTime s.iterNumber ((s.forwardTime + b.fwd) / 20),
                 Ev.reportBackwardTime s.iterNumber ((s.backwardTime + b.bwd) / 20),
                 Ev.reportTotalTime s.iterNumber ((s.totalTime + b.tot) / 20)])
       else []), isPhaseEv e = false ∧ isAvgRoundEv e = false := by
  intro e he
  by_cases h20 : s.iterNumber % 20 = 0
  · rw [if_pos h20] at he
    by_cases h20e : s.iterNumber = 20
    · rw [if_pos h20e] at he
      rw [List.mem_singleton.mp he]
      exact ⟨rfl, rfl⟩
    · rw [if_neg h20e] at he
      rcases List.mem_cons.mp he with h | h
      · rw [h]; exact ⟨rfl, rfl⟩
      · rcases List.mem_cons.mp h with h1 | h1
        · rw [h1]; exact ⟨rfl, rfl⟩
        · rcases List.mem_cons.mp h1 with h2 | h2
          · rw [h2]; exact ⟨rfl, rfl⟩
          · rw [List.mem_singleton.mp h2]; exact ⟨rfl, rfl⟩
  · rw [if_neg h20] at he
    exact absurd he (List.not_mem_nil e)

/-- Claim C4: each training step executes, in order, the zero-grad and
forward pass, then the loss/backward pass, then exactly one averaging
round per parameter (the single `average_gradients` call iterating all
parameters in order), and only then the optimizer step; whatever
follows the optimizer step in the step's trace is reporting, never a
phase event, so the optimizer step never precedes any of the step's
averaging rounds and runs only after all of them. -/
theorem train_step_phase_order (nParams : Nat) (s : TrainState) (b : BatchObs) :
    (∃ rep, (trainIter nParams s b).2 =
        [Ev.zeroGrad, Ev.forwardPass, Ev.backwardPass] ++
          (List.range nParams).map Ev.avgRound ++ [Ev.optStep] ++ rep ∧
        ∀ e ∈ rep, isPhaseEv e = false) ∧
    (trainIter nParams s b).2.filter isAvgRoundEv =
      (List.range nParams).map Ev.avgRound := by
  constructor
  · exact ⟨_, trainIter_snd_eq nParams s b,
      fun e he => (trainIter_reports_not_phase nParams s b e he).1⟩
  · rw [trainIter_snd_eq nParams s b]
    rw [List.filter_append, List.filter_append, List.filter_append]
    rw [List.filter_eq_nil_iff.mpr (fun e he => by
      rcases List.mem_cons.mp he with h | he'
      · rw [h]; simp [isAvgRoundEv]
      · rcases List.mem_cons.mp he' with h | he''
        · rw [h]; simp [isAvgRoundEv]
        · rw [List.mem_singleton.mp he'']; simp [isAvgRoundEv])]
    rw [List.filter_eq_self.mpr (fun e he => by
      rcases List.mem_map.mp he with ⟨j, _, hj⟩
      rw [← hj]; rfl)]
    rw [List.filter_eq_nil_iff.mpr (fun e he => by
      rw [List.mem_singleton.mp he]; simp [isAvgRoundEv])]
    rw [List.filter_eq_nil_iff.mpr (fun e he => by
      simp [(trainIter_reports_not_phase nParams s b e he).2])]
    simp

theorem trainIter_fst_iterNumber (nParams : Nat) (s : TrainState) (b : BatchObs) :
    (trainIter nParams s b).1.iterNumber = s.iterNumber + 1 := by
  unfold trainIter
  by_cases h : s.iterNumber % 20 = 0
  · rw [if_pos h]
  · rw [if_neg h]

theorem trainIter_fst_epochLoss (nParams : Nat) (s : TrainState) (b : BatchObs) :
    (trainIter nParams s b).1.epochLoss =
      if s.iterNumber % 20 = 0 then 0 else s.epochLoss + b.loss := by
  unfold trainIter
  by_cases h : s.iterNumber % 20 = 0
  · rw [if_pos h, if_pos h]
  · rw [if_neg h, if_neg h]

theorem stateBefore_iterNumber (nParams : Nat) (bs : List BatchObs) (i : Nat) :
    (stateBefore nParams bs i).iterNumber = i + 1 := by
  induction i with
  | zero => rfl
  | succ i ih =>
    show (trainIter nParams (stateBefore nParams bs i) (bs.getD i ⟨0, 0, 0, 0⟩)).1.iterNumber = i + 1 + 1
    rw [trainIter_fst_iterNumber, ih]

theorem stateBefore_epochLoss (nParams : Nat) (bs : List BatchObs) (i : Nat)
    (hi : i ≤ bs.length) :
    (stateBefore nParams bs i).epochLoss = windowSum bs i := by
  induction i with
  | zero =>
    show initialTrainState.epochLoss = windowSum bs 0
    simp [initialTrainState, windowSum]
  | succ i ih =>
    have hi' : i ≤ bs.length := Nat.le_of_succ_le hi
    have hib : i < bs.length := Nat.lt_of_succ_le hi
    show (trainIter nParams (stateBefore nParams bs i) (bs.getD i ⟨0, 0, 0, 0⟩)).1.epochLoss =
      windowSum bs (i + 1)
    rw [trainIter_fst_epochLoss, stateBefore_iterNumber]
    by_cases h : (i + 1) % 20 = 0
    · rw [if_pos h]
      have h1 : 20 * ((i + 1) / 20) = i + 1 := by omega
      rw [windowSum, h1]
      rw [List.drop_eq_nil_of_le (by rw [List.length_take]; omega)]
      simp
    · rw [if_neg h, ih hi']
      have hq : (i + 1) / 20 = i / 20 := by omega
      rw [windowSum, windowSum, hq, List.take_succ, List.getElem?_eq_getElem hib]
      have hd : 20 * (i / 20) ≤ i := by omega
      rw [List.drop_append_of_le_length (by rw [List.length_take]; omega)]
      rw [List.map_append, List.sum_append]
      have : (bs.getD i ⟨0, 0, 0, 0⟩) = bs[i] := by
        rw [List.getD_eq_getElem?_getD, List.getElem?_eq_getElem hib]
        rfl
      rw [this]
      simp [Option.toList]

theorem loopStateFrom_cons (nParams : Nat) (s : TrainState) (b : BatchObs)
    (rest : List BatchObs) (i : Nat) :
    loopStateFrom nParams s (b :: rest) (i + 1) =
      loopStateFrom nParams (trainIter nParams s b).1 rest i := by
  induction i with
  | zero => rfl
  | succ i ih =>
    show (trainIter nParams (loopStateFrom nParams s (b :: rest) (i + 1))
        ((b :: rest).getD (i + 1) ⟨0, 0, 0, 0⟩)).1 =
      (trainIter nParams (loopStateFrom nParams (trainIter nParams s b).1 rest i)
        (rest.getD i ⟨0, 0, 0, 0⟩)).1
    rw [ih, List.getD_cons_succ]

theorem runIters_getD (nParams : Nat) :
    ∀ (bs : List BatchObs) (i : Nat) (s : TrainState), i < bs.length →
      (runIters nParams s bs).getD i [] =
        (trainIter nParams (loopStateFrom nParams s bs i) (bs.getD i ⟨0, 0, 0, 0⟩)).2 := by
  intro bs
  induction bs with
  | nil => intro i s hi; exact absurd hi (Nat.not_lt_zero i)
  | cons b rest ih =>
    intro i s hi
    cases i with
    | zero => rfl
    | succ i =>
      show (runIters nParams (trainIter nParams s b).1 rest).getD i [] = _
      rw [ih i (trainIter nParams s b).1 (Nat.lt_of_succ_lt_succ hi),
        loopStateFrom_cons, List.getD_cons_succ]

theorem train_model_trace_getD (nParams : Nat) (bs : List BatchObs) (i : Nat)
    (hi : i < bs.length) :
    (train_model_trace nParams bs).getD i [] = stepEvents nParams bs i :=
  runIters_getD nParams bs i initialTrainState hi

theorem windowSum_report (bs : List BatchObs) (i : Nat) (hib : i < bs.length)
    (h : (i + 1) % 20 = 0) :
    windowSum bs i + (bs.getD i ⟨0, 0, 0, 0⟩).loss =
      (((bs.take (i + 1)).drop (i + 1 - 20)).map BatchObs.loss).sum := by
  have hq : 20 * (i / 20) = i + 1 - 20 := by omega
  rw [windowSum, hq, List.take_succ, List.getElem?_eq_getElem hib]
  rw [List.drop_append_of_le_length (by rw [List.length_take]; omega)]
  rw [List.map_append, List.sum_append]
  have : (bs.getD i ⟨0, 0, 0, 0⟩) = bs[i] := by
    rw [List.getD_eq_getElem?_getD, List.getElem?_eq_getElem hib]
    rfl
  rw [this]
  simp [Option.toList]

/-- Claim C6, amended: at training step k (1-based) inside an epoch,
`train_model` reports the rolling-average loss (the loss accumulated
over the preceding 20 steps divided by 20) if and only if k is a
multiple of 20, but reports the forward-pass, backward-pass and total
phase-timing diagnostics if and only if k is a multiple of 20 other
than 20 itself (the first report window omits the timing diagnostics). -/
theorem train_model_report_schedule (nParams : Nat) (bs : List BatchObs)
    (i : Nat) (hi : i < bs.length) :
    (train_model_trace nParams bs).getD i [] = stepEvents nParams bs i ∧
    ((stepEvents nParams bs i).any isLossReportEv = true ↔ (i + 1) % 20 = 0) ∧
    ((i + 1) % 20 = 0 →
      Ev.reportLoss (i + 1)
        ((((bs.take (i + 1)).drop (i + 1 - 20)).map BatchObs.loss).sum / 20) ∈
        stepEvents nParams bs i) ∧
    ((stepEvents nParams bs i).any isTimingReportEv = true ↔
      ((i + 1) % 20 = 0 ∧ i + 1 ≠ 20)) := by
  have hs := stateBefore_iterNumber nParams bs i
  have hloss := stateBefore_epochLoss nParams bs i (le_of_lt hi)
  refine ⟨train_model_trace_getD nParams bs i hi, ?_, ?_, ?_⟩
  · rw [stepEvents, trainIter_snd_eq, hs]
    by_cases h20 : (i + 1) % 20 = 0
    · rw [if_pos h20]
      simp [h20, isLossReportEv]
    · rw [if_neg h20]
      simp [h20, isLossReportEv]
  · intro h20
    rw [stepEvents, trainIter_snd_eq, hs, if_pos h20, hloss,
      windowSum_report bs i hi h20]
    simp
  · rw [stepEvents, trainIter_snd_eq, hs]
    by_cases h20 : (i + 1) % 20 = 0
    · by_cases h20e : i + 1 = 20
      · rw [if_pos h20, if_pos h20e]
        simp [h20, h20e, isTimingReportEv]
      · rw [if_pos h20, if_neg h20e]
        simp [h20, h20e, isTimingReportEv]
    · rw [if_neg h20]
      simp [h20, isTimingReportEv]

/-- Witness for the amended C6 at a concrete one-batch run: step 1 is
not a multiple of 20, so neither a loss report nor timing diagnostics
are emitted. -/
theorem train_model_report_schedule_witness :
    (train_model_trace 1 [⟨0, 0, 0, 0⟩]).getD 0 [] = stepEvents 1 [⟨0, 0, 0, 0⟩] 0 ∧
    ((stepEvents 1 [⟨0, 0, 0, 0⟩] 0).any isLossReportEv = true ↔ (0 + 1) % 20 = 0) ∧
    ((0 + 1) % 20 = 0 →
      Ev.reportLoss (0 + 1)
        ((((([⟨0, 0, 0, 0⟩] : List BatchObs).take (0 + 1)).drop (0 + 1 - 20)).map
            BatchObs.loss).sum / 20) ∈
        stepEvents 1 [⟨0, 0, 0, 0⟩] 0) ∧
    ((stepEvents 1 [⟨0, 0, 0, 0⟩] 0).any isTimingReportEv = true ↔
      ((0 + 1) % 20 = 0 ∧ 0 + 1 ≠ 20)) :=
  train_model_report_schedule 1 [⟨0, 0, 0, 0⟩] 0 (by norm_num)

/-- Counterexample to claim C6 as stated: training step 20 is a
multiple of 20 and the run reports the rolling-average loss there, yet
emits no phase-timing diagnostics, because the code suppresses the
timing report at iteration 20 exactly; so "reports both the loss and
the timing diagnostics iff the step is a multiple of 20" fails at
step 20. -/
theorem train_model_report_schedule_counterexample :
    (19 + 1) % 20 = 0 ∧
    (stepEvents 1 (List.replicate 20 ⟨0, 0, 0, 0⟩) 19).any isLossReportEv = true ∧
    (stepEvents 1 (List.replicate 20 ⟨0, 0, 0, 0⟩) 19).any isTimingReportEv = false := by
  have hs := stateBefore_iterNumber 1 (List.replicate 20 ⟨0, 0, 0, 0⟩) 19
  refine ⟨by norm_num, ?_, ?_⟩
  · rw [stepEvents, trainIter_snd_eq, hs]
    norm_num [isLossReportEv]
  · rw [stepEvents, trainIter_snd_eq, hs]
    norm_num [isTimingReportEv]

/-- Claim C5: for every global batch size B and world size N at least
1, the per-worker batch size computed by `run` is the integer part of
B / N (truncation toward zero, which for nonnegative values is Nat
division), and the training data loader is constructed with exactly
that batch size; 256 over 4 workers gives 64. -/
theorem run_local_batch_size (B N rank : Nat) (h : 1 ≤ N) :
    localBatchSize B N = B / N ∧
    trainLoaderBatchSize rank N B = some (B / N) := by
  have h1 : localBatchSize B N = B / N := by
    rw [localBatchSize, Nat.floor_div_nat, Nat.floor_natCast]
  exact ⟨h1, by rw [show trainLoaderBatchSize rank N B = some (localBatchSize B N) from rfl, h1]⟩

/-- Witness for C5 at the spec's concrete scenario: global batch size
256, world size 4, local batch size 64. -/
theorem run_local_batch_size_witness :
    localBatchSize 256 4 = 64 ∧ trainLoaderBatchSize 0 4 256 = some 64 := by
  have h := run_local_batch_size 256 4 0 (by norm_num)
  exact ⟨h.1.trans (by norm_num), h.2.trans (by norm_num)⟩

/-- Claim C9: every worker, whatever its rank, seeds torch and numpy
with the constant 0 before constructing the model, so the seed states
in force at model construction are rank-independent and any
deterministic initializer produces identical initial parameters on any
two workers of the run. -/
theorem model_init_seeded_identically (r1 r2 size B : Nat)
    (init : Option Nat → Option Nat → List ℚ) :
    torchSeedAtModelBuild r1 size B = some 0 ∧
    numpySeedAtModelBuild r1 size B = some 0 ∧
    initialModelParams init r1 size B = initialModelParams init r2 size B := by
  have hT : ∀ r : Nat, torchSeedAtModelBuild r size B = some 0 := fun r => rfl
  have hN : ∀ r : Nat, numpySeedAtModelBuild r size B = some 0 := fun r => rfl
  refine ⟨hT r1, hN r1, ?_⟩
  rw [initialModelParams, initialModelParams, hT r1, hT r2, hN r1, hN r2]

/-- Claim C8, amended: across the epoch loop of `run` the carried
mutable state is the model parameters, the optimizer state, and
additionally the model's train/eval mode flag, which `test_model` sets
to eval at the end of every epoch and which nothing resets — after any
positive number of epochs the state entering the next epoch has the
flag at eval, not at its initial train value; the loss accumulators,
timers and iteration counters of `train_model` are locals initialized
afresh on each call, so every epoch's training trace is a function of
that epoch's batch observations alone. -/
theorem run_epochs_carried_state (nParams : Nat)
    (f : List ℚ × List ℚ → Bool → List ℚ × List ℚ)
    (bss : List (List BatchObs)) (w mo : List ℚ)
    (h : bss ≠ []) :
    ((run_epochs nParams f bss (initialModelOpt w mo)).1).training = false ∧
    (run_epochs nParams f bss (initialModelOpt w mo)).2 =
      bss.map (train_model_trace nParams) := by
  constructor
  · have key : ∀ (bss : List (List BatchObs)) (m : ModelOpt), bss ≠ [] →
        ((run_epochs nParams f bss m).1).training = false := by
      intro bss
      induction bss with
      | nil => intro m hm; exact absurd rfl hm
      | cons bs rest ih =>
        intro m _
        cases rest with
        | nil =>
          show ((run_epochs nParams f [] (run_epoch f m)).1).training = false
          rfl
        | cons bs2 rest2 =>
          show ((run_epochs nParams f (bs2 :: rest2) (run_epoch f m)).1).training = false
          exact ih (run_epoch f m) (List.cons_ne_nil bs2 rest2)
    exact key bss (initialModelOpt w mo) h
  · have key : ∀ (bss : List (List BatchObs)) (m : ModelOpt),
        (run_epochs nParams f bss m).2 = bss.map (train_model_trace nParams) := by
      intro bss
      induction bss with
      | nil => intro m; rfl
      | cons bs rest ih =>
        intro m
        show train_model_trace nParams bs :: (run_epochs nParams f rest (run_epoch f m)).2 =
          train_model_trace nParams bs :: rest.map (train_model_trace nParams)
        rw [ih (run_epoch f m)]
    exact key bss (initialModelOpt w mo)

/-- Witness for the amended C8: a one-epoch run; the flag entering any
further epoch is eval, and the epoch's training trace is the trace of
its own (empty) batch list. -/
theorem run_epochs_carried_state_witness :
    ((run_epochs 1 (fun wm _ => wm) [[]] (initialModelOpt [0] [0])).1).training = false ∧
    (run_epochs 1 (fun wm _ => wm) [[]] (initialModelOpt [0] [0])).2 =
      ([[]] : List (List BatchObs)).map (train_model_trace 1) :=
  run_epochs_carried_state 1 (fun wm _ => wm) [[]] [0] [0] (List.cons_ne_nil [] [])

/-- Counterexample to claim C8 as stated: the train/eval mode flag set
by the evaluation pass is mutable state carried across epochs, and it
is neither reset before the next epoch's training (after epoch 1 the
carried flag is eval, not the initial train value) nor without effect
on it: for an admissible mode-sensitive model update, the second
epoch's training outcome on the carried state differs from the outcome
on the same state with the flag reset to train mode. -/
theorem run_epochs_carried_state_counterexample :
    (run_epoch modeSensitiveUpdate (initialModelOpt [0] [0])).training = false ∧
    train_model_effect modeSensitiveUpdate
        (run_epoch modeSensitiveUpdate (initialModelOpt [0] [0])) ≠
      train_model_effect modeSensitiveUpdate
        { run_epoch modeSensitiveUpdate (initialModelOpt [0] [0]) with
            training := true } := by
  constructor
  · rfl
  · intro hcontra
    have hT := congrArg ModelOpt.training hcontra
    simp [train_model_effect, run_epoch, test_model_effect] at hT
